import Mathlib

/-!
Verification development for the Sentra anti-spam bot (`bot.py`).

The program keeps an in-memory registry `known_hashes : dict[str, ImageHash]`
mapping a filename key to a 64-bit perceptual hash, matches incoming image
attachments against it by Hamming distance, and persists the registry as a
JSON snapshot (`hashes.json`) mapping each key to the hex string of its hash.

The embedding below models:
- a fingerprint as a list of booleans (the flattened 8x8 boolean hash array
  of `imagehash.ImageHash`; 64 bits for the default pHash);
- the registry as an association list in insertion order (Python dicts
  preserve insertion order; keys are unique);
- the serialization used by `save_hashes_to_json` / `load_hashes_from_json`:
  `str(hash)` renders the bits as a zero-padded hex string
  (`imagehash._binary_array_to_hex`), and `imagehash.hex_to_hash` parses it
  back, failing (exception) on a malformed string;
- the filesystem pieces the bot touches (the `hashes.json` file and the
  `spam_images/` folder) as explicit state threaded through the handlers.

External library calls (PIL decoding, `imagehash.phash`) are pure functions
of their input; they are embedded as function parameters or as the opaque
fingerprint carried by a folder entry.
-/

/-- A perceptual-hash fingerprint: the flattened boolean hash array of an
`imagehash.ImageHash` (64 bits for the default 8x8 pHash). -/
abbrev Fingerprint := List Bool

/-- `ImageHash.__sub__`: the Hamming distance between two hashes,
`numpy.count_nonzero(self.hash.flatten() != other.hash.flatten())`. -/
def hashDiff (h1 h2 : Fingerprint) : Nat :=
  (List.zipWith (fun a b => a != b) h1 h2).count true

/-- `is_similar_hash` (bot.py:118-120): `(h1 - h2) <= tol`. -/
def is_similar_hash (h1 h2 : Fingerprint) (tol : Nat) : Bool :=
  hashDiff h1 h2 ≤ tol

/-- The registry-matching loop inside `on_message` (bot.py:161-178):
iterate `known_hashes.items()` in insertion order and return the key of the
first entry whose hash is within tolerance of the attachment's hash;
`none` when no entry is within tolerance. -/
def find_match (query : Fingerprint) (reg : List (String × Fingerprint)) (tol : Nat) :
    Option String :=
  match reg with
  | [] => none
  | (name, h) :: rest =>
    if is_similar_hash query h tol then some name else find_match query rest tol

/-- Python `dict` lookup on an insertion-ordered association list. -/
def dictGet {α : Type} (l : List (String × α)) (k : String) : Option α :=
  match l with
  | [] => none
  | (k2, v) :: rest => if k2 = k then some v else dictGet rest k

/-- Python `d[k] = v`: overwrite in place if the key is present (keeping its
position), otherwise append at the end. -/
def dictInsert {α : Type} (l : List (String × α)) (k : String) (v : α) :
    List (String × α) :=
  match l with
  | [] => [(k, v)]
  | (k2, v2) :: rest =>
    if k2 = k then (k2, v) :: rest else (k2, v2) :: dictInsert rest k v

/-- Python `d.pop(k, None)`: remove the (unique) occurrence of the key. -/
def dictRemove {α : Type} (l : List (String × α)) (k : String) : List (String × α) :=
  match l with
  | [] => []
  | (k2, v2) :: rest => if k2 = k then rest else (k2, v2) :: dictRemove rest k

-- ---------- Fingerprint serialization (str(hash) / imagehash.hex_to_hash) ----------

/-- One bit as the integer Python builds the bit string from. -/
def bitToNat (b : Bool) : Nat := if b then 1 else 0

/-- `int(bit_string, 2)` where `bit_string` lists the bits most significant
first, as in `imagehash._binary_array_to_hex`. -/
def natOfBits (bits : List Bool) : Nat :=
  bits.foldl (fun acc b => 2 * acc + bitToNat b) 0

/-- The hex digits (most significant first) of `'{:0>{width}x}'.format(n)`:
base-16 digits of `n`, zero-padded on the left to `width`. -/
def hexDigitsOfNat (width n : Nat) : List Nat :=
  let ds := Nat.digits 16 n
  (ds ++ List.replicate (width - ds.length) 0).reverse

/-- `str(hash)` = `imagehash._binary_array_to_hex(arr)`: the bits as a
big-endian binary number rendered in hex, zero-padded to
`ceil(len(bits)/4)` characters. -/
def hashStr (bits : List Bool) : String :=
  ⟨(hexDigitsOfNat ((bits.length + 3) / 4) (natOfBits bits)).map Nat.digitChar⟩

/-- The value of one hex character as accepted by Python `int(s, 16)`;
`none` for a non-hex character (which makes `int` raise `ValueError`). -/
def charHexVal (c : Char) : Option Nat :=
  if '0' ≤ c ∧ c ≤ '9' then some (c.toNat - '0'.toNat)
  else if 'a' ≤ c ∧ c ≤ 'f' then some (c.toNat - 'a'.toNat + 10)
  else if 'A' ≤ c ∧ c ≤ 'F' then some (c.toNat - 'A'.toNat + 10)
  else none

/-- The hex values of a character list; `none` as soon as one character is
not a hex digit (the `ValueError` of Python `int`). -/
def hexVals (cs : List Char) : Option (List Nat) :=
  match cs with
  | [] => some []
  | c :: rest =>
    match charHexVal c with
    | none => none
    | some d =>
      match hexVals rest with
      | none => none
      | some ds => some (d :: ds)

/-- `int(s, 16)`: fails on an empty string or any non-hex character,
otherwise folds the digits most-significant-first. -/
def natOfHex (s : String) : Option Nat :=
  match hexVals s.data with
  | none => none
  | some ds => if ds.isEmpty then none else some (ds.foldl (fun a d => 16 * a + d) 0)

/-- Floor integer square root, the value of `int(numpy.sqrt(n))` in
`imagehash.hex_to_hash` (written structurally so it evaluates in the
kernel). -/
def intSqrt (n : Nat) : Nat :=
  ((List.range (n + 1)).filter fun s => s * s ≤ n).length - 1

/-- `'{:0>{w}b}'.format(n)` read back as booleans, most significant bit
first (bit `i` of the rendered string is `n.testBit (w-1-i)`). -/
def bitsOfNat (w n : Nat) : List Bool :=
  (List.range w).map fun i => n.testBit (w - 1 - i)

/-- `imagehash.hex_to_hash`: computes `hash_size = int(sqrt(len(s)*4))`,
asserts `hash_size**2 == len(s)*4`, parses the hex string as an integer and
unpacks it into `len(s)*4` bits; any failure (assert or parse) raises,
modelled as `none`. -/
def hex_to_hash (s : String) : Option Fingerprint :=
  if intSqrt (4 * s.data.length) * intSqrt (4 * s.data.length) = 4 * s.data.length then
    (natOfHex s).map (bitsOfNat (4 * s.data.length))
  else none

-- ---------- Filesystem model ----------

/-- The contents of `hashes.json` as the bot can encounter them: absent,
present but not valid JSON, or a parsed JSON object of string pairs. -/
inductive SnapshotFile where
  | absent
  | corrupt
  | parsed (entries : List (String × String))
deriving DecidableEq

/-- One directory entry of `spam_images/` as `load_hashes_from_folder`
classifies it: a regular file that decodes to an image (carrying the pHash
the codec computes for it), a regular file that is not an image
(`UnidentifiedImageError`), a regular file whose processing raises some
other exception, or a subdirectory (skipped by `os.path.isfile`). -/
inductive DirEntry where
  | imageFile (ph : Fingerprint)
  | nonImageFile
  | unreadableFile
  | subdir
deriving DecidableEq

/-- `os.path.isfile` on a directory entry. -/
def entryIsFile : DirEntry → Bool
  | .subdir => false
  | _ => true

/-- The filesystem state the bot touches: the `hashes.json` snapshot and
the `spam_images/` folder (`none` when the directory does not exist). -/
structure FS where
  hashesFile : SnapshotFile
  spamFolder : Option (List (String × DirEntry))
deriving DecidableEq

/-- The JSON payload `{k: str(v) for k, v in hashes.items()}` written by
`save_hashes_to_json`. -/
def snapshotPayload (hashes : List (String × Fingerprint)) : List (String × String) :=
  hashes.map fun p => (p.1, hashStr p.2)

/-- `save_hashes_to_json` (bot.py:79-87): writes the payload to the file;
every exception is caught and logged, so on a write failure (`writeOk =
false`) the file keeps its previous contents and the function still
returns. The boolean result records whether the write succeeded. -/
def save_hashes_to_json (hashes : List (String × Fingerprint)) (writeOk : Bool)
    (old : SnapshotFile) : SnapshotFile × Bool :=
  if writeOk then (.parsed (snapshotPayload hashes), true) else (old, false)

/-- The dict comprehension of `load_hashes_from_json`: convert every value
with `imagehash.hex_to_hash`, aborting the whole result (`none`, the raised
exception) on the first malformed value. -/
def decodeEntries (entries : List (String × String)) : Option (List (String × Fingerprint)) :=
  match entries with
  | [] => some []
  | p :: rest =>
    match hex_to_hash p.2 with
    | none => none
    | some h =>
      match decodeEntries rest with
      | none => none
      | some out => some ((p.1, h) :: out)

/-- `load_hashes_from_json` (bot.py:89-101): returns `{}` when the file is
absent; otherwise parses the JSON and converts every value with
`imagehash.hex_to_hash`; any exception (unparsable JSON, malformed hex)
is caught and yields `{}`. -/
def load_hashes_from_json (f : SnapshotFile) : List (String × Fingerprint) :=
  match f with
  | .absent => []
  | .corrupt => []
  | .parsed entries =>
    match decodeEntries entries with
    | none => []
    | some out => out

/-- `load_hashes_from_folder` (bot.py:56-77): if the folder does not exist,
create it (`os.makedirs`) and return `{}`; otherwise fingerprint every
regular file that decodes as an image, skipping subdirectories, non-image
files and files whose processing raises. Returns the (possibly created)
folder together with the scanned registry. -/
def load_hashes_from_folder (folder : Option (List (String × DirEntry))) :
    Option (List (String × DirEntry)) × List (String × Fingerprint) :=
  match folder with
  | none => (some [], [])
  | some entries =>
    (some entries,
     entries.filterMap fun p =>
       match p.2 with
       | .imageFile ph => some (p.1, ph)
       | _ => none)

/-- `on_ready` (bot.py:124-136): load the registry from `hashes.json`; if
that yields a non-empty dict use it, otherwise scan `spam_images/` and
save the scanned result as the new cache. Returns the new filesystem
state and the new `known_hashes`. -/
def on_ready (fs : FS) (writeOk : Bool) : FS × List (String × Fingerprint) :=
  let loaded := load_hashes_from_json fs.hashesFile
  if loaded.isEmpty then
    let scan := load_hashes_from_folder fs.spamFolder
    let saved := save_hashes_to_json scan.2 writeOk fs.hashesFile
    (⟨saved.1, scan.1⟩, scan.2)
  else
    (fs, loaded)

/-- `reload_hashes` (bot.py:193-200): rescan `spam_images/` unconditionally,
replace `known_hashes` wholesale, then save the cache. -/
def reload_hashes (fs : FS) (writeOk : Bool) : FS × List (String × Fingerprint) :=
  let scan := load_hashes_from_folder fs.spamFolder
  let saved := save_hashes_to_json scan.2 writeOk fs.hashesFile
  (⟨saved.1, scan.1⟩, scan.2)

/-- The outcome `remove_spam` reports to the invoker. -/
inductive RemoveOutcome where
  | notFound
  | removed
deriving DecidableEq

/-- `remove_spam` (bot.py:259-278): if the name is not a key of
`known_hashes`, reply "not found" and return without touching anything.
Otherwise delete the backing file `SPAM_FOLDER/name` when it exists as a
regular file (`os.remove`; a failure, `deleteOk = false`, is only logged),
pop the entry, and save the cache. -/
def remove_spam (fs : FS) (known : List (String × Fingerprint)) (name : String)
    (deleteOk writeOk : Bool) : FS × List (String × Fingerprint) × RemoveOutcome :=
  if (dictGet known name).isNone then (fs, known, .notFound)
  else
    let folder2 :=
      match fs.spamFolder with
      | none => none
      | some entries =>
        match dictGet entries name with
        | some e =>
          if entryIsFile e && deleteOk then some (dictRemove entries name)
          else some entries
        | none => some entries
    let known2 := dictRemove known name
    let saved := save_hashes_to_json known2 writeOk fs.hashesFile
    (⟨saved.1, folder2⟩, known2, .removed)

/-- One attachment of an `add_spam` invocation, as the loop body classifies
it: skipped for a non-image content type, failing somewhere in
download/decode/save (exception caught, `continue`), or successfully
sanitized and saved under `savedName` with pHash `ph`. -/
inductive Attachment where
  | nonImage
  | failing
  | image (savedName : String) (ph : Fingerprint)

/-- One iteration of the `add_spam` attachment loop (bot.py:232-254): on
success, ensure `spam_images/` exists (`os.makedirs(..., exist_ok=True)`),
write the sanitized PNG into it, insert its pHash into `known_hashes`, and
count it as added. -/
def add_one (acc : Option (List (String × DirEntry)) × List (String × Fingerprint) × Nat)
    (att : Attachment) :
    Option (List (String × DirEntry)) × List (String × Fingerprint) × Nat :=
  match att with
  | .nonImage => acc
  | .failing => acc
  | .image name ph =>
    let entries := match acc.1 with | none => [] | some es => es
    (some (dictInsert entries name (.imageFile ph)),
     dictInsert acc.2.1 name ph,
     acc.2.2 + 1)

/-- `add_spam` (bot.py:219-257): with no attachments, reply with usage and
return without saving (`none`). Otherwise process every attachment, then
save the cache once and report how many were added. -/
def add_spam (fs : FS) (known : List (String × Fingerprint)) (atts : List Attachment)
    (writeOk : Bool) : FS × List (String × Fingerprint) × Option Nat :=
  if atts.isEmpty then (fs, known, none)
  else
    let r := atts.foldl add_one (fs.spamFolder, known, 0)
    let saved := save_hashes_to_json r.2.1 writeOk fs.hashesFile
    (⟨saved.1, r.1⟩, r.2.1, some r.2.2)

-- ---------- Fingerprint codec (compute_phash_*) ----------

/-- A decoded PIL image; its content is opaque to the bot's own code. -/
structure PILImage where
  pix : List Nat
deriving DecidableEq

/-- `compute_phash_from_pil` (bot.py:50-54): normalize orientation
(`ImageOps.exif_transpose`), convert to RGB, and hash (`imagehash.phash`).
The three library calls are pure functions passed in as parameters. -/
def compute_phash_from_pil (exifTranspose convertRGB : PILImage → PILImage)
    (phash : PILImage → Fingerprint) (img : PILImage) : Fingerprint :=
  phash (convertRGB (exifTranspose img))

/-- `compute_phash_from_bytes` (bot.py:112-116): open the bytes with PIL
(raising, i.e. `none`, when they do not decode) and hash the image. -/
def compute_phash_from_bytes (imageOpen : List Nat → Option PILImage)
    (exifTranspose convertRGB : PILImage → PILImage)
    (phash : PILImage → Fingerprint) (data : List Nat) : Option Fingerprint :=
  (imageOpen data).map (compute_phash_from_pil exifTranspose convertRGB phash)

-- ---------- Serialization round-trip lemmas ----------

/-- Folding digits most-significant-first is `Nat.ofDigits` of the reverse. -/
theorem foldl_base_mul_add (b : Nat) (l : List Nat) :
    ∀ a : Nat, l.foldl (fun x d => b * x + d) a = a * b ^ l.length + Nat.ofDigits b l.reverse := by
  induction l with
  | nil => intro a; simp
  | cons d l ih =>
    intro a
    simp only [List.foldl_cons, ih (b * a + d), List.reverse_cons, Nat.ofDigits_append,
      List.length_reverse, List.length_cons, Nat.ofDigits_cons, Nat.ofDigits_nil]
    ring

/-- `natOfBits` as `Nat.ofDigits` over the reversed bit list. -/
theorem natOfBits_eq_ofDigits (bits : List Bool) :
    natOfBits bits = Nat.ofDigits 2 (bits.reverse.map bitToNat) := by
  have h1 : natOfBits bits = (bits.map bitToNat).foldl (fun x d => 2 * x + d) 0 := by
    rw [natOfBits, List.foldl_map]
  rw [h1, foldl_base_mul_add, List.map_reverse]
  simp

/-- A fingerprint of `w` bits packs into an integer below `2 ^ w`. -/
theorem natOfBits_lt (bits : List Bool) : natOfBits bits < 2 ^ bits.length := by
  rw [natOfBits_eq_ofDigits]
  have h := Nat.ofDigits_lt_base_pow_length (b := 2) (l := bits.reverse.map bitToNat)
    (by norm_num) ?_
  · simpa using h
  · intro x hx
    simp only [List.mem_map] at hx
    obtain ⟨c, _, rfl⟩ := hx
    cases c <;> simp [bitToNat]

/-- Bit `i` of an integer assembled from binary digits is digit `i`. -/
theorem testBit_ofDigits_bits (l : List Bool) :
    ∀ i : Nat, (Nat.ofDigits 2 (l.map bitToNat)).testBit i = l.getD i false := by
  induction l with
  | nil => intro i; simp [Nat.zero_testBit]
  | cons c l ih =>
    intro i
    have hco : Nat.ofDigits 2 ((c :: l).map bitToNat) =
        bitToNat c + 2 * Nat.ofDigits 2 (l.map bitToNat) := by
      simp [Nat.ofDigits_cons]
    cases i with
    | zero =>
      rw [hco, Nat.testBit_zero]
      cases c <;> simp [bitToNat, Nat.add_mul_mod_self_left]
    | succ i =>
      rw [hco, Nat.testBit_succ]
      have hc : bitToNat c < 2 := by cases c <;> decide
      have hdiv : (bitToNat c + 2 * Nat.ofDigits 2 (l.map bitToNat)) / 2 =
          Nat.ofDigits 2 (l.map bitToNat) := by omega
      rw [hdiv, ih]
      simp

/-- Unpacking the packed integer back into `bits.length` bits restores the
original bit list. -/
theorem bitsOfNat_natOfBits (bits : List Bool) :
    bitsOfNat bits.length (natOfBits bits) = bits := by
  apply List.ext_getElem
  · simp [bitsOfNat]
  · intro i h1 h2
    simp only [bitsOfNat, List.getElem_map, List.getElem_range]
    rw [natOfBits_eq_ofDigits, testBit_ofDigits_bits bits.reverse (bits.length - 1 - i)]
    have hidx : bits.length - 1 - i < bits.reverse.length := by
      simp only [List.length_reverse]; omega
    rw [List.getD_eq_getElem _ _ hidx, List.getElem_reverse]
    congr 1
    omega

/-- Every hex digit survives the character round trip. -/
theorem charHexVal_digitChar : ∀ d : Nat, d < 16 → charHexVal (Nat.digitChar d) = some d := by
  decide

/-- `Nat.ofDigits` of a run of zero digits is zero. -/
theorem ofDigits_replicate_zero (b : Nat) : ∀ k : Nat, Nat.ofDigits b (List.replicate k 0) = 0 := by
  intro k
  induction k with
  | zero => simp
  | succ k ih => simp [List.replicate_succ, Nat.ofDigits_cons, ih]

/-- Every entry of `hexDigitsOfNat` is a valid hex digit. -/
theorem hexDigitsOfNat_lt (width n : Nat) : ∀ d ∈ hexDigitsOfNat width n, d < 16 := by
  intro d hd
  simp only [hexDigitsOfNat, List.mem_reverse, List.mem_append] at hd
  rcases hd with hd | hd
  · exact Nat.digits_lt_base (by norm_num) hd
  · have := List.eq_of_mem_replicate hd
    omega

/-- A number below `16 ^ width` has at most `width` base-16 digits. -/
theorem digits_len_le_of_lt (width n : Nat) (h : n < 16 ^ width) :
    (Nat.digits 16 n).length ≤ width := by
  rcases Nat.eq_zero_or_pos n with rfl | hn
  · simp
  · have hlog := Nat.log_lt_of_lt_pow (by omega : n ≠ 0) h
    rw [Nat.digits_len 16 n (by norm_num) (by omega)]
    omega

/-- The rendered hex string has exactly `width` characters. -/
theorem hexDigitsOfNat_length (width n : Nat) (h : n < 16 ^ width) :
    (hexDigitsOfNat width n).length = width := by
  have := digits_len_le_of_lt width n h
  simp only [hexDigitsOfNat, List.length_reverse, List.length_append, List.length_replicate]
  omega

/-- Reading back the characters of a rendered digit list succeeds. -/
theorem hexVals_digitChar (l : List Nat) (hl : ∀ d ∈ l, d < 16) :
    hexVals (l.map Nat.digitChar) = some l := by
  induction l with
  | nil => rfl
  | cons d l ih =>
    have hd : d < 16 := hl d (List.mem_cons_self d l)
    have hrest : ∀ d2 ∈ l, d2 < 16 := fun d2 h2 => hl d2 (List.mem_cons_of_mem d h2)
    simp [hexVals, charHexVal_digitChar d hd, ih hrest]

/-- Parsing the zero-padded hex rendering of `n` recovers `n`. -/
theorem natOfHex_hexDigits (width n : Nat) (hw : 0 < width) (h : n < 16 ^ width) :
    natOfHex ⟨(hexDigitsOfNat width n).map Nat.digitChar⟩ = some n := by
  have hlt := hexDigitsOfNat_lt width n
  have hlen := hexDigitsOfNat_length width n h
  rw [natOfHex]
  simp only [String.data]
  rw [hexVals_digitChar _ hlt]
  have hne : (hexDigitsOfNat width n).isEmpty = false := by
    cases hcase : hexDigitsOfNat width n with
    | nil => rw [hcase] at hlen; simp at hlen; omega
    | cons a l => rfl
  simp only [hne, if_false, Bool.false_eq_true]
  congr 1
  rw [foldl_base_mul_add]
  simp only [hexDigitsOfNat, List.reverse_reverse, Nat.zero_mul, Nat.zero_add]
  rw [Nat.ofDigits_append, Nat.ofDigits_digits, ofDigits_replicate_zero]
  simp

/-- `str(hash)` then `hex_to_hash` restores a 64-bit fingerprint exactly. -/
theorem hex_to_hash_hashStr (bits : Fingerprint) (h : bits.length = 64) :
    hex_to_hash (hashStr bits) = some bits := by
  have hlt : natOfBits bits < 16 ^ 16 := by
    have h2 := natOfBits_lt bits
    rw [h] at h2
    calc natOfBits bits < 2 ^ 64 := h2
    _ = 16 ^ 16 := by norm_num
  have hwidth : (bits.length + 3) / 4 = 16 := by omega
  have hstr : hashStr bits = ⟨(hexDigitsOfNat 16 (natOfBits bits)).map Nat.digitChar⟩ := by
    rw [hashStr, hwidth]
  have hparse : natOfHex (hashStr bits) = some (natOfBits bits) := by
    rw [hstr]
    exact natOfHex_hexDigits 16 _ (by norm_num) hlt
  have hslen : (hashStr bits).data.length = 16 := by
    rw [hstr]
    simp only [String.data, List.length_map]
    exact hexDigitsOfNat_length 16 _ hlt
  rw [hex_to_hash, hslen, hparse]
  have hsqrt : intSqrt (4 * 16) = 8 := by decide
  rw [hsqrt, if_pos (by norm_num : (8 : Nat) * 8 = 4 * 16)]
  show some (bitsOfNat (4 * 16) (natOfBits bits)) = some bits
  rw [show (4 * 16 : Nat) = bits.length by omega, bitsOfNat_natOfBits]

-- ---------- Shared helper lemmas ----------

/-- A matching head entry is returned immediately. -/
theorem find_match_cons_hit (q fp : Fingerprint) (tol : Nat) (id : String)
    (rest : List (String × Fingerprint)) (h : hashDiff q fp ≤ tol) :
    find_match q ((id, fp) :: rest) tol = some id := by
  simp [find_match, is_similar_hash, h]

/-- A non-matching head entry is skipped. -/
theorem find_match_cons_miss (q fp : Fingerprint) (tol : Nat) (id : String)
    (rest : List (String × Fingerprint)) (h : tol < hashDiff q fp) :
    find_match q ((id, fp) :: rest) tol = find_match q rest tol := by
  simp [find_match, is_similar_hash, Nat.not_le.mpr h]

/-- A registry with no entry within tolerance yields no match. -/
theorem find_match_none (q : Fingerprint) (tol : Nat) :
    ∀ reg : List (String × Fingerprint), (∀ p ∈ reg, tol < hashDiff q p.2) →
      find_match q reg tol = none := by
  intro reg
  induction reg with
  | nil => intro _; rfl
  | cons p rest ih =>
    intro h
    rw [show p = (p.1, p.2) from rfl, find_match_cons_miss q p.2 tol p.1 rest
      (h p (List.mem_cons_self p rest))]
    exact ih fun p2 h2 => h p2 (List.mem_cons_of_mem p h2)

/-- Decoding the saved payload of a registry of 64-bit fingerprints
restores the registry exactly. -/
theorem decodeEntries_snapshotPayload :
    ∀ reg : List (String × Fingerprint), (∀ p ∈ reg, p.2.length = 64) →
      decodeEntries (snapshotPayload reg) = some reg := by
  intro reg
  induction reg with
  | nil => intro _; rfl
  | cons p rest ih =>
    intro h
    have hp : p.2.length = 64 := h p (List.mem_cons_self p rest)
    have hrest := ih fun p2 h2 => h p2 (List.mem_cons_of_mem p h2)
    simp only [snapshotPayload, List.map_cons] at hrest ⊢
    simp [decodeEntries, hex_to_hash_hashStr p.2 hp, hrest]

/-- Loading a snapshot that is the saved payload of a 64-bit registry
returns that registry. -/
theorem load_parsed_payload (reg : List (String × Fingerprint))
    (h : ∀ p ∈ reg, p.2.length = 64) :
    load_hashes_from_json (.parsed (snapshotPayload reg)) = reg := by
  simp [load_hashes_from_json, decodeEntries_snapshotPayload reg h]

/-- `on_ready` with a non-empty snapshot load keeps the filesystem and
adopts the loaded registry. -/
theorem on_ready_snapshot_nonempty (fs : FS) (writeOk : Bool)
    (h : load_hashes_from_json fs.hashesFile ≠ []) :
    on_ready fs writeOk = (fs, load_hashes_from_json fs.hashesFile) := by
  cases hl : load_hashes_from_json fs.hashesFile with
  | nil => exact absurd hl h
  | cons a l => simp [on_ready, hl]

/-- `on_ready` with an empty snapshot load scans the folder and saves. -/
theorem on_ready_fallback (fs : FS) (writeOk : Bool)
    (h : load_hashes_from_json fs.hashesFile = []) :
    on_ready fs writeOk =
      (⟨(save_hashes_to_json (load_hashes_from_folder fs.spamFolder).2 writeOk fs.hashesFile).1,
        (load_hashes_from_folder fs.spamFolder).1⟩,
       (load_hashes_from_folder fs.spamFolder).2) := by
  simp [on_ready, h]

/-- The scenario fingerprint `F`: the all-zero 64-bit hash. -/
def fpA : Fingerprint := List.replicate 64 false

/-- A query fingerprint at Hamming distance 4 from `fpA`. -/
def queryNear : Fingerprint := List.replicate 4 true ++ List.replicate 60 false

-- ---------- Claim theorems ----------

/-- Claim C1: for every registry and query fingerprint, the match loop of
`on_message` scans the entries in insertion order and returns the first
entry whose Hamming distance to the query is within tolerance, and returns
no match when no entry is within tolerance; concretely, with one entry
`"a"` whose fingerprint is at distance 4 from the query, tolerance 5
matches `"a"` and tolerance 3 does not match. -/
theorem C1_first_match_in_insertion_order :
    (∀ (q : Fingerprint) (tol : Nat) (pre post : List (String × Fingerprint))
       (id : String) (fp : Fingerprint),
       (∀ p ∈ pre, tol < hashDiff q p.2) → hashDiff q fp ≤ tol →
       find_match q (pre ++ (id, fp) :: post) tol = some id)
  ∧ (∀ (q : Fingerprint) (tol : Nat) (reg : List (String × Fingerprint)),
       (∀ p ∈ reg, tol < hashDiff q p.2) → find_match q reg tol = none)
  ∧ hashDiff queryNear fpA = 4
  ∧ find_match queryNear [("a", fpA)] 5 = some "a"
  ∧ find_match queryNear [("a", fpA)] 3 = none := by
  refine ⟨?_, find_match_none, by decide, by decide, by decide⟩
  intro q tol pre post id fp hpre hfp
  induction pre with
  | nil => exact find_match_cons_hit q fp tol id post hfp
  | cons p rest ih =>
    rw [List.cons_append, show p = (p.1, p.2) from rfl,
      find_match_cons_miss q p.2 tol p.1 _ (hpre p (List.mem_cons_self p rest))]
    exact ih fun p2 h2 => hpre p2 (List.mem_cons_of_mem p h2)

/-- Witness for C1 at a concrete registry. -/
theorem C1_witness :
    (∀ p ∈ ([] : List (String × Fingerprint)), 5 < hashDiff queryNear p.2) ∧
    hashDiff queryNear fpA ≤ 5 ∧
    find_match queryNear ([] ++ ("a", fpA) :: []) 5 = some "a" :=
  ⟨by decide, by decide,
   C1_first_match_in_insertion_order.1 queryNear 5 [] [] "a" fpA (by decide) (by decide)⟩

/-- Claim C2: removing an id that is not in the registry is a no-op
reported as not-found: the filesystem (snapshot and folder) and the
in-memory registry are returned unchanged and no error is raised. -/
theorem C2_remove_absent_is_noop (fs : FS) (known : List (String × Fingerprint))
    (name : String) (deleteOk writeOk : Bool) (h : dictGet known name = none) :
    remove_spam fs known name deleteOk writeOk = (fs, known, .notFound) := by
  simp [remove_spam, h]

/-- Witness for C2: removing "missing" from an empty registry. -/
theorem C2_witness :
    dictGet ([] : List (String × Fingerprint)) "missing" = none ∧
    remove_spam ⟨.absent, none⟩ [] "missing" true true = (⟨.absent, none⟩, [], .notFound) :=
  ⟨rfl, C2_remove_absent_is_noop ⟨.absent, none⟩ [] "missing" true true rfl⟩

/-- Claim C4: saving any registry of 64-bit fingerprints as a snapshot and
loading the snapshot back reproduces exactly the same sequence of
(id, fingerprint) pairs. -/
theorem C4_save_load_roundtrip (reg : List (String × Fingerprint)) (old : SnapshotFile)
    (h : ∀ p ∈ reg, p.2.length = 64) :
    load_hashes_from_json (save_hashes_to_json reg true old).1 = reg := by
  simp only [save_hashes_to_json, if_pos rfl]
  exact load_parsed_payload reg h

/-- Witness for C4 at a one-entry registry. -/
theorem C4_witness :
    (∀ p ∈ [("a", fpA)], p.2.length = 64) ∧
    load_hashes_from_json (save_hashes_to_json [("a", fpA)] true .absent).1 = [("a", fpA)] :=
  ⟨by decide, C4_save_load_roundtrip [("a", fpA)] .absent (by decide)⟩

/-- Claim C5: loading the snapshot fails soft: an absent file, an
unparsable file, or a parsed file containing any value that
`hex_to_hash` rejects all yield the empty registry rather than an error. -/
theorem C5_load_fails_soft :
    load_hashes_from_json .absent = []
  ∧ load_hashes_from_json .corrupt = []
  ∧ (∀ (pre post : List (String × String)) (k v : String), hex_to_hash v = none →
       load_hashes_from_json (.parsed (pre ++ (k, v) :: post)) = [])
  ∧ hex_to_hash "" = none
  ∧ hex_to_hash "xyz" = none := by
  refine ⟨rfl, rfl, ?_, by decide, by decide⟩
  intro pre post k v hv
  have hdec : ∀ pre2 : List (String × String), decodeEntries (pre2 ++ (k, v) :: post) = none := by
    intro pre2
    induction pre2 with
    | nil => simp [decodeEntries, hv]
    | cons q rest ih =>
      cases hq : hex_to_hash q.2 <;> simp [decodeEntries, hq, ih]
  simp [load_hashes_from_json, hdec pre]

/-- Witness for C5: a parsed snapshot with one malformed hex value. -/
theorem C5_witness :
    hex_to_hash "" = none ∧
    load_hashes_from_json (.parsed ([] ++ ("a", "") :: [])) = [] :=
  ⟨by decide, C5_load_fails_soft.2.2.1 [] [] "a" "" (by decide)⟩

/-- Claim C3: `on_ready` first loads the registry from `hashes.json`; if
and only if that load is empty, it falls back to scanning `spam_images/`
and immediately persists the scanned result, so that a subsequent restart
(with a non-empty, well-formed scan) adopts the snapshot instead of
rescanning. -/
theorem C3_initialize_prefers_snapshot :
    (∀ (fs : FS) (writeOk : Bool), load_hashes_from_json fs.hashesFile ≠ [] →
       on_ready fs writeOk = (fs, load_hashes_from_json fs.hashesFile))
  ∧ (∀ (fs : FS) (writeOk : Bool), load_hashes_from_json fs.hashesFile = [] →
       (on_ready fs writeOk).2 = (load_hashes_from_folder fs.spamFolder).2 ∧
       (writeOk = true → (on_ready fs writeOk).1.hashesFile =
         .parsed (snapshotPayload (load_hashes_from_folder fs.spamFolder).2)))
  ∧ (∀ fs : FS, load_hashes_from_json fs.hashesFile = [] →
       (load_hashes_from_folder fs.spamFolder).2 ≠ [] →
       (∀ p ∈ (load_hashes_from_folder fs.spamFolder).2, p.2.length = 64) →
       on_ready (on_ready fs true).1 true =
         ((on_ready fs true).1, (load_hashes_from_folder fs.spamFolder).2)) := by
  refine ⟨on_ready_snapshot_nonempty, ?_, ?_⟩
  · intro fs writeOk h
    rw [on_ready_fallback fs writeOk h]
    cases writeOk with
    | true => simp [save_hashes_to_json]
    | false => simp
  · intro fs h hne hlen
    rw [on_ready_fallback fs true h]
    have hfile : (save_hashes_to_json (load_hashes_from_folder fs.spamFolder).2 true
        fs.hashesFile).1 = .parsed (snapshotPayload (load_hashes_from_folder fs.spamFolder).2) := by
      simp [save_hashes_to_json]
    have hload : load_hashes_from_json
        (FS.mk (save_hashes_to_json (load_hashes_from_folder fs.spamFolder).2 true
          fs.hashesFile).1 (load_hashes_from_folder fs.spamFolder).1).hashesFile =
        (load_hashes_from_folder fs.spamFolder).2 := by
      rw [show (FS.mk (save_hashes_to_json (load_hashes_from_folder fs.spamFolder).2 true
        fs.hashesFile).1 (load_hashes_from_folder fs.spamFolder).1).hashesFile =
        (save_hashes_to_json (load_hashes_from_folder fs.spamFolder).2 true
          fs.hashesFile).1 from rfl, hfile]
      exact load_parsed_payload _ hlen
    rw [on_ready_snapshot_nonempty _ true (by rw [hload]; exact hne), hload]

/-- Witness for C3: a filesystem whose snapshot decodes to one entry. -/
theorem C3_witness :
    load_hashes_from_json (FS.mk (.parsed [("a", "0000000000000000")]) none).hashesFile ≠ [] ∧
    on_ready ⟨.parsed [("a", "0000000000000000")], none⟩ true =
      (⟨.parsed [("a", "0000000000000000")], none⟩,
       load_hashes_from_json (FS.mk (.parsed [("a", "0000000000000000")]) none).hashesFile) :=
  ⟨by decide,
   C3_initialize_prefers_snapshot.1 ⟨.parsed [("a", "0000000000000000")], none⟩ true (by decide)⟩

/-- Claim C6: each mutating operation (`add_spam`, `remove_spam`,
`reload_hashes`) persists the new in-memory registry to the snapshot
before reporting success; when the write fails the in-memory mutation is
kept (not rolled back), the snapshot keeps its old contents, and the
handler still returns normally. -/
theorem C6_mutations_persist_before_success :
    (∀ (fs : FS) (known : List (String × Fingerprint)) (atts : List Attachment)
       (writeOk : Bool), atts ≠ [] →
       (add_spam fs known atts writeOk).2.1 =
         (atts.foldl add_one (fs.spamFolder, known, 0)).2.1 ∧
       (writeOk = true → (add_spam fs known atts writeOk).1.hashesFile =
         .parsed (snapshotPayload ((atts.foldl add_one (fs.spamFolder, known, 0)).2.1))) ∧
       (writeOk = false → (add_spam fs known atts writeOk).1.hashesFile = fs.hashesFile))
  ∧ (∀ (fs : FS) (known : List (String × Fingerprint)) (name : String) (fp : Fingerprint)
       (deleteOk writeOk : Bool), dictGet known name = some fp →
       (remove_spam fs known name deleteOk writeOk).2.1 = dictRemove known name ∧
       (writeOk = true → (remove_spam fs known name deleteOk writeOk).1.hashesFile =
         .parsed (snapshotPayload (dictRemove known name))) ∧
       (writeOk = false →
         (remove_spam fs known name deleteOk writeOk).1.hashesFile = fs.hashesFile))
  ∧ (∀ (fs : FS) (writeOk : Bool),
       (reload_hashes fs writeOk).2 = (load_hashes_from_folder fs.spamFolder).2 ∧
       (writeOk = true → (reload_hashes fs writeOk).1.hashesFile =
         .parsed (snapshotPayload (load_hashes_from_folder fs.spamFolder).2)) ∧
       (writeOk = false → (reload_hashes fs writeOk).1.hashesFile = fs.hashesFile)) := by
  refine ⟨?_, ?_, ?_⟩
  · intro fs known atts writeOk hne
    have hemp : atts.isEmpty = false := by
      cases atts with
      | nil => exact absurd rfl hne
      | cons a l => rfl
    cases writeOk <;> simp [add_spam, hemp, save_hashes_to_json]
  · intro fs known name fp deleteOk writeOk h
    have hsome : (dictGet known name).isNone = false := by rw [h]; rfl
    cases writeOk <;> simp [remove_spam, hsome, save_hashes_to_json]
  · intro fs writeOk
    cases writeOk <;> simp [reload_hashes, save_hashes_to_json]

/-- Witness for C6: adding one image with a successful write. -/
theorem C6_witness :
    ([Attachment.image "x" fpA] ≠ []) ∧
    (add_spam ⟨.absent, none⟩ [] [.image "x" fpA] true).2.1 =
      ([Attachment.image "x" fpA].foldl add_one ((⟨.absent, none⟩ : FS).spamFolder, [], 0)).2.1 :=
  ⟨List.cons_ne_nil _ _,
   (C6_mutations_persist_before_success.1 ⟨.absent, none⟩ [] [.image "x" fpA] true
     (List.cons_ne_nil _ _)).1⟩

/-- Claim C7: the fingerprint computation is deterministic: identical
image bytes always yield bit-for-bit identical fingerprints (the pipeline
is a pure function of the bytes; it reads no other state). -/
theorem C7_fingerprint_deterministic (imageOpen : List Nat → Option PILImage)
    (exifTranspose convertRGB : PILImage → PILImage) (phash : PILImage → Fingerprint)
    (d1 d2 : List Nat) (h : d1 = d2) :
    compute_phash_from_bytes imageOpen exifTranspose convertRGB phash d1 =
      compute_phash_from_bytes imageOpen exifTranspose convertRGB phash d2 := by
  rw [h]

/-- Witness for C7 at a concrete byte string and concrete codec. -/
theorem C7_witness :
    ([42] : List Nat) = [42] ∧
    compute_phash_from_bytes (fun d => some ⟨d⟩) id id (fun _ => fpA) [42] =
      compute_phash_from_bytes (fun d => some ⟨d⟩) id id (fun _ => fpA) [42] :=
  ⟨rfl, C7_fingerprint_deterministic (fun d => some ⟨d⟩) id id (fun _ => fpA) [42] [42] rfl⟩

/-- Claim C9: removing a present id also deletes the backing file
`SPAM_FOLDER/<id>` when it exists as a regular file; a failed delete is
only logged — the registry entry is removed and the snapshot re-persisted
regardless. -/
theorem C9_remove_deletes_backing_file (fs : FS) (known : List (String × Fingerprint))
    (name : String) (fp : Fingerprint) (deleteOk writeOk : Bool)
    (h : dictGet known name = some fp) :
    (remove_spam fs known name deleteOk writeOk).2.1 = dictRemove known name
  ∧ (remove_spam fs known name deleteOk writeOk).2.2 = .removed
  ∧ (∀ (entries : List (String × DirEntry)) (e : DirEntry),
       fs.spamFolder = some entries → dictGet entries name = some e →
       entryIsFile e = true → deleteOk = true →
       (remove_spam fs known name deleteOk writeOk).1.spamFolder =
         some (dictRemove entries name))
  ∧ (deleteOk = false → (remove_spam fs known name deleteOk writeOk).1.spamFolder =
       fs.spamFolder)
  ∧ (writeOk = true → (remove_spam fs known name deleteOk writeOk).1.hashesFile =
       .parsed (snapshotPayload (dictRemove known name))) := by
  have hsome : (dictGet known name).isNone = false := by rw [h]; rfl
  refine ⟨by simp [remove_spam, hsome], by simp [remove_spam, hsome], ?_, ?_, ?_⟩
  · intro entries e hfold hge hef hd
    subst hd
    simp [remove_spam, hsome, hfold, hge, hef]
  · intro hd
    subst hd
    cases hfold : fs.spamFolder with
    | none => simp [remove_spam, hsome, hfold]
    | some entries =>
      cases hge : dictGet entries name with
      | none => simp [remove_spam, hsome, hfold, hge]
      | some e => simp [remove_spam, hsome, hfold, hge]
  · intro hw
    subst hw
    simp [remove_spam, hsome, save_hashes_to_json]

/-- Witness for C9: removing the only entry, whose backing file exists. -/
theorem C9_witness :
    dictGet [("a", fpA)] "a" = some fpA ∧
    (remove_spam ⟨.absent, some [("a", DirEntry.imageFile fpA)]⟩ [("a", fpA)] "a" true true).2.1 =
      dictRemove [("a", fpA)] "a" :=
  ⟨by decide,
   (C9_remove_deletes_backing_file ⟨.absent, some [("a", DirEntry.imageFile fpA)]⟩
     [("a", fpA)] "a" fpA true true (by decide)).1⟩

/-- Claim C10: when `spam_images/` does not exist, the directory scan
creates it and returns the empty registry, so a first `on_ready` on a
fresh deployment (no snapshot, no folder) yields an empty-but-ready
registry with the folder created. -/
theorem C10_missing_folder_created :
    load_hashes_from_folder none = (some [], [])
  ∧ on_ready ⟨.absent, none⟩ true = (⟨.parsed [], some []⟩, [])
  ∧ on_ready ⟨.absent, none⟩ false = (⟨.absent, some []⟩, []) := by
  exact ⟨rfl, rfl, rfl⟩
